import Mathlib

/-!
Verification of the core of the photo-editing-analysis repository:
the session segmenter (`get_sessions_from_time_series`), the metadata
store (`get_metadata`), the tag lookup helper (`try_get_tag`), the
dataset assembler of `__main__.py`, and the CLI validation
(`validate_args`).

Timestamps are embedded as rationals: the segmenter uses only ordering
and subtraction on instants, which are exact operations.  Failure modes
of the Python code (assertion failures, raised exceptions) are embedded
in the `Except` monad over the error taxonomy `PyError`.
-/

namespace PhotoAnalysis

/-- The error taxonomy of the system, combining the spec's named error
conditions with the raw Python exception kinds the code can raise. -/
inductive PyError where
  | insufficientDataError
  | missingTagError
  | indexError
  | typeError
  | valueError
deriving DecidableEq

/-! ## Session segmenter (`data.py`, `get_sessions_from_time_series`) -/

/-- The loop state of the generator: the running `session_start`
variable and the list of durations yielded so far. -/
structure SegState where
  sessionStart : ℚ
  emitted : List ℚ
deriving DecidableEq

/-- One iteration of the loop body of `get_sessions_from_time_series`
over a consecutive pair `(prev_time, cur_time)`:
if `cur_time - prev_time >= min_break_between_sessions_sec`, the
pending session is closed (`session_start` is reset to `cur_time`) and
its duration is yielded when strictly positive; otherwise nothing
happens. -/
def segStep (min_break_between_sessions_sec : ℚ) (st : SegState)
    (pair : ℚ × ℚ) : SegState :=
  if min_break_between_sessions_sec ≤ pair.2 - pair.1 then
    { sessionStart := pair.2,
      emitted := st.emitted ++
        (if 0 < pair.1 - st.sessionStart then [pair.1 - st.sessionStart] else []) }
  else
    st

/-- The `for prev_time, cur_time in zip(timestamps_sec, timestamps_sec[1:])`
loop: fold the loop body over the consecutive pairs of the sorted list. -/
def segLoop (min_break_between_sessions_sec : ℚ) (st : SegState)
    (ts : List ℚ) : SegState :=
  (ts.zip ts.tail).foldl (segStep min_break_between_sessions_sec) st

/-- `get_sessions_from_time_series` from `data.py`: assert at least two
timestamps (embedded as `PyError.insufficientDataError`, the spec's name
for the assertion failure), sort, run the loop, then unconditionally
yield the final session `timestamps_sec[-1] - session_start`. -/
def get_sessions_from_time_series (timestamps_sec : List ℚ)
    (min_break_between_sessions_sec : ℚ := 1800) :
    Except PyError (List ℚ) :=
  if 1 < timestamps_sec.length then
    let ts := timestamps_sec.insertionSort (· ≤ ·)
    let stF := segLoop min_break_between_sessions_sec ⟨ts.headD 0, []⟩ ts
    .ok (stF.emitted ++ [ts.getLastD 0 - stF.sessionStart])
  else
    .error .insufficientDataError

/-- Specification-side measure: the sum of all gaps `>= T` between
consecutive points of a list. -/
def gapSum (min_break_between_sessions_sec : ℚ) : List ℚ → ℚ
  | p :: c :: rest =>
      (if min_break_between_sessions_sec ≤ c - p then c - p else 0) +
        gapSum min_break_between_sessions_sec (c :: rest)
  | _ => 0

lemma segLoop_single (T : ℚ) (st : SegState) (t : ℚ) :
    segLoop T st [t] = st := rfl

lemma segLoop_cons_cons (T : ℚ) (st : SegState) (p c : ℚ) (rest : List ℚ) :
    segLoop T st (p :: c :: rest) = segLoop T (segStep T st (p, c)) (c :: rest) := rfl

/-- Invariant: over a sorted list whose head is at least `session_start`,
the emitted durations plus the still-open final session plus the skipped
gaps telescope to `last - session_start`. -/
lemma segLoop_sum (T : ℚ) : ∀ (l : List ℚ) (a : ℚ) (st : SegState),
    (a :: l).Sorted (· ≤ ·) → st.sessionStart ≤ a →
    (segLoop T st (a :: l)).emitted.sum
        + ((a :: l).getLastD 0 - (segLoop T st (a :: l)).sessionStart)
        + gapSum T (a :: l)
      = st.emitted.sum + ((a :: l).getLastD 0 - st.sessionStart) := by
  intro l
  induction l with
  | nil =>
      intro a st _ _
      simp [segLoop, gapSum]
  | cons c rest ih =>
      intro a st hs hstart
      rw [List.sorted_cons] at hs
      obtain ⟨hle, hs'⟩ := hs
      have hac : a ≤ c := hle c (by simp)
      rw [segLoop_cons_cons]
      have hlast : ((a :: c :: rest).getLastD 0) = ((c :: rest).getLastD 0) := by
        simp [List.getLastD]
      rw [hlast]
      unfold segStep
      dsimp only
      by_cases hgap : T ≤ c - a
      · rw [if_pos hgap]
        have hrec := ih c ⟨c, st.emitted ++
          (if 0 < a - st.sessionStart then [a - st.sessionStart] else [])⟩ hs' le_rfl
        dsimp only at hrec
        have hsum : (st.emitted ++
            (if 0 < a - st.sessionStart then [a - st.sessionStart] else [])).sum
            = st.emitted.sum + (a - st.sessionStart) := by
          by_cases hpos : 0 < a - st.sessionStart
          · rw [if_pos hpos]; simp
          · rw [if_neg hpos]
            have hz : a - st.sessionStart = 0 :=
              le_antisymm (not_lt.mp hpos) (by linarith)
            simp [hz]
        have hg : gapSum T (a :: c :: rest) = (c - a) + gapSum T (c :: rest) := by
          simp [gapSum, if_pos hgap]
        rw [hg]
        linarith [hrec, hsum]
      · rw [if_neg hgap]
        have hrec := ih c st hs' (le_trans hstart hac)
        have hg : gapSum T (a :: c :: rest) = 0 + gapSum T (c :: rest) := by
          simp [gapSum, if_neg hgap]
        rw [hg]
        linarith [hrec]

/-- Invariant: over a sorted list whose head is at least `session_start`,
all emitted durations stay strictly positive and the final
`session_start` never exceeds the last instant. -/
lemma segLoop_pos (T : ℚ) : ∀ (l : List ℚ) (a : ℚ) (st : SegState),
    (a :: l).Sorted (· ≤ ·) → st.sessionStart ≤ a →
    (∀ x ∈ st.emitted, 0 < x) →
    (∀ x ∈ (segLoop T st (a :: l)).emitted, 0 < x) ∧
      (segLoop T st (a :: l)).sessionStart ≤ (a :: l).getLastD 0 := by
  intro l
  induction l with
  | nil =>
      intro a st _ hstart hem
      exact ⟨hem, by simpa [segLoop] using hstart⟩
  | cons c rest ih =>
      intro a st hs hstart hem
      rw [List.sorted_cons] at hs
      obtain ⟨hle, hs'⟩ := hs
      have hac : a ≤ c := hle c (by simp)
      rw [segLoop_cons_cons]
      have hlast : ((a :: c :: rest).getLastD 0) = ((c :: rest).getLastD 0) := by
        simp [List.getLastD]
      rw [hlast]
      unfold segStep
      dsimp only
      by_cases hgap : T ≤ c - a
      · rw [if_pos hgap]
        refine ih c _ hs' le_rfl ?_
        intro x hx
        simp only [List.mem_append] at hx
        rcases hx with hx | hx
        · exact hem x hx
        · by_cases hpos : 0 < a - st.sessionStart
          · rw [if_pos hpos] at hx
            simp only [List.mem_singleton] at hx
            exact hx ▸ hpos
          · rw [if_neg hpos] at hx
            simp at hx
      · rw [if_neg hgap]
        exact ih c st hs' (le_trans hstart hac) hem

lemma insertionSort_ne_nil (ts : List ℚ) (h : 1 < ts.length) :
    ts.insertionSort (· ≤ ·) ≠ [] := by
  have hlen := (List.perm_insertionSort (· ≤ ·) ts).length_eq
  intro hnil
  rw [hnil] at hlen
  simp at hlen
  omega

lemma dropLast_append_singleton (l : List ℚ) (x : ℚ) :
    (l ++ [x]).dropLast = l := by
  simp

/-- The body of `get_sessions_from_time_series` on a valid input. -/
lemma get_sessions_eq_ok (timestamps_sec : List ℚ) (T : ℚ)
    (h : 1 < timestamps_sec.length) :
    get_sessions_from_time_series timestamps_sec T =
      .ok ((segLoop T ⟨(timestamps_sec.insertionSort (· ≤ ·)).headD 0, []⟩
              (timestamps_sec.insertionSort (· ≤ ·))).emitted ++
            [(timestamps_sec.insertionSort (· ≤ ·)).getLastD 0 -
              (segLoop T ⟨(timestamps_sec.insertionSort (· ≤ ·)).headD 0, []⟩
                (timestamps_sec.insertionSort (· ≤ ·))).sessionStart]) := by
  unfold get_sessions_from_time_series
  rw [if_pos h]

/-- C1: for every sequence of at least two instants and every threshold
`T > 0`, the sum of the session durations returned by
`get_sessions_from_time_series` plus the sum of all gaps `>= T` between
consecutive sorted instants equals the span between the first and last
sorted instant. -/
theorem claim_C1_sum_invariant (timestamps_sec : List ℚ) (T : ℚ)
    (hlen : 1 < timestamps_sec.length) (_hT : 0 < T) :
    ∃ out, get_sessions_from_time_series timestamps_sec T = .ok out ∧
      out.sum + gapSum T (timestamps_sec.insertionSort (· ≤ ·))
        = (timestamps_sec.insertionSort (· ≤ ·)).getLastD 0
            - (timestamps_sec.insertionSort (· ≤ ·)).headD 0 := by
  refine ⟨_, get_sessions_eq_ok timestamps_sec T hlen, ?_⟩
  have hsorted := List.sorted_insertionSort (α := ℚ) (· ≤ ·) timestamps_sec
  cases hseq : timestamps_sec.insertionSort (· ≤ ·) with
  | nil => exact absurd hseq (insertionSort_ne_nil timestamps_sec hlen)
  | cons a l =>
      rw [hseq] at hsorted
      have hsum := segLoop_sum T l a ⟨a, []⟩ hsorted le_rfl
      simp only [List.headD_cons, List.sum_append, List.sum_cons, List.sum_nil]
      dsimp only at hsum
      simp only [List.sum_nil] at hsum
      linarith [hsum]

/-- Witness for C1 at the spec's concrete scenario
`[0, 100, 2200, 2300, 10000]` with threshold `1800`. -/
theorem claim_C1_witness :
    ∃ out, get_sessions_from_time_series [0, 100, 2200, 2300, 10000] 1800 = .ok out ∧
      out.sum + gapSum 1800 (([0, 100, 2200, 2300, 10000] : List ℚ).insertionSort (· ≤ ·))
        = (([0, 100, 2200, 2300, 10000] : List ℚ).insertionSort (· ≤ ·)).getLastD 0
            - (([0, 100, 2200, 2300, 10000] : List ℚ).insertionSort (· ≤ ·)).headD 0 :=
  claim_C1_sum_invariant [0, 100, 2200, 2300, 10000] 1800 (by norm_num) (by norm_num)

/-- C2: a gap exactly equal to the threshold closes a session (the
loop body emits the pending positive duration and resets
`session_start`), while a gap strictly below the threshold does not (the
loop body leaves the state unchanged).  Observably, a two-instant input
whose gap is exactly `T` yields `[0]` (the pending session was closed at
the pair and suppressed as zero), while a gap below `T` yields the full
span `[cur - prev]`. -/
theorem claim_C2_tie_break (T prev cur : ℚ) (st : SegState) :
    (cur - prev = T →
      segStep T st (prev, cur)
        = ⟨cur, st.emitted ++
            (if 0 < prev - st.sessionStart then [prev - st.sessionStart] else [])⟩) ∧
    (cur - prev < T → segStep T st (prev, cur) = st) ∧
    (prev ≤ cur → cur - prev = T →
      get_sessions_from_time_series [prev, cur] T = .ok [0]) ∧
    (prev ≤ cur → cur - prev < T →
      get_sessions_from_time_series [prev, cur] T = .ok [cur - prev]) := by
  have hsort : ([prev, cur] : List ℚ).insertionSort (· ≤ ·)
      = if prev ≤ cur then [prev, cur] else [cur, prev] := by
    simp only [List.insertionSort, List.orderedInsert]
  refine ⟨?_, ?_, ?_, ?_⟩
  · intro heq
    unfold segStep
    rw [if_pos (le_of_eq heq.symm)]
  · intro hlt
    unfold segStep
    rw [if_neg (not_le.mpr hlt)]
  · intro hle heq
    rw [get_sessions_eq_ok [prev, cur] T (by norm_num), hsort, if_pos hle]
    rw [segLoop_cons_cons, segLoop_single]
    simp [segStep, heq, sub_self]
  · intro hle hlt
    rw [get_sessions_eq_ok [prev, cur] T (by norm_num), hsort, if_pos hle]
    rw [segLoop_cons_cons, segLoop_single]
    simp [segStep, not_le.mpr hlt]

/-- Witness for C2 at `prev = 0`, `cur = 5`, `T = 5` (tie) and
`T = 7` (strictly below threshold). -/
theorem claim_C2_witness :
    segStep 5 ⟨0, []⟩ (0, 5)
      = ⟨5, [] ++ (if (0:ℚ) < 0 - 0 then [(0:ℚ) - 0] else [])⟩ ∧
    segStep 7 ⟨0, []⟩ (0, 5) = ⟨0, []⟩ ∧
    get_sessions_from_time_series [0, 5] 5 = .ok [0] ∧
    get_sessions_from_time_series [0, 5] 7 = .ok [5 - 0] :=
  ⟨(claim_C2_tie_break 5 0 5 ⟨0, []⟩).1 (by norm_num),
   (claim_C2_tie_break 7 0 5 ⟨0, []⟩).2.1 (by norm_num),
   (claim_C2_tie_break 5 0 5 ⟨0, []⟩).2.2.1 (by norm_num) (by norm_num),
   (claim_C2_tie_break 7 0 5 ⟨0, []⟩).2.2.2 (by norm_num) (by norm_num)⟩

/-- The segmenter's output on a valid input is non-empty, non-negative
throughout, and strictly positive before its final element. -/
lemma get_sessions_output_props (timestamps_sec : List ℚ) (T : ℚ)
    (hlen : 1 < timestamps_sec.length) :
    ∃ out, get_sessions_from_time_series timestamps_sec T = .ok out ∧
      out ≠ [] ∧ (∀ x ∈ out, 0 ≤ x) ∧ (∀ x ∈ out.dropLast, 0 < x) := by
  refine ⟨_, get_sessions_eq_ok timestamps_sec T hlen, ?_⟩
  have hsorted := List.sorted_insertionSort (α := ℚ) (· ≤ ·) timestamps_sec
  cases hseq : timestamps_sec.insertionSort (· ≤ ·) with
  | nil => exact absurd hseq (insertionSort_ne_nil timestamps_sec hlen)
  | cons a l =>
      rw [hseq] at hsorted
      have hpos := segLoop_pos T l a ⟨a, []⟩ hsorted le_rfl (by simp)
      simp only [List.headD_cons]
      refine ⟨by simp, ?_, ?_⟩
      · intro x hx
        rw [List.mem_append, List.mem_singleton] at hx
        rcases hx with hx | hx
        · exact le_of_lt (hpos.1 x hx)
        · rw [hx]
          have := hpos.2
          linarith
      · rw [dropLast_append_singleton]
        exact hpos.1

/-- C3: on any input of at least two instants the segmenter succeeds
with a non-empty list of sessions, every emitted duration is
non-negative, every non-final duration is strictly positive (zero
durations can occur only as the final session), and two identical
timestamps yield exactly one session of duration `0`. -/
theorem claim_C3_nonneg_final_zero (timestamps_sec : List ℚ) (T t : ℚ)
    (hlen : 1 < timestamps_sec.length) :
    (∃ out, get_sessions_from_time_series timestamps_sec T = .ok out ∧
      out ≠ [] ∧ (∀ x ∈ out, 0 ≤ x) ∧ (∀ x ∈ out.dropLast, 0 < x)) ∧
    get_sessions_from_time_series [t, t] T = .ok [0] := by
  constructor
  · exact get_sessions_output_props timestamps_sec T hlen
  · have hsort : ([t, t] : List ℚ).insertionSort (· ≤ ·) = [t, t] := by
      simp [List.insertionSort, List.orderedInsert]
    rw [get_sessions_eq_ok [t, t] T (by norm_num), hsort]
    rw [segLoop_cons_cons, segLoop_single]
    by_cases hgap : T ≤ t - t
    · simp [segStep, hgap]
    · simp [segStep, hgap]

/-- Witness for C3 at input `[3, 1]`, threshold `1800`, `t = 5`. -/
theorem claim_C3_witness :
    (∃ out, get_sessions_from_time_series [3, 1] 1800 = .ok out ∧
      out ≠ [] ∧ (∀ x ∈ out, 0 ≤ x) ∧ (∀ x ∈ out.dropLast, 0 < x)) ∧
    get_sessions_from_time_series [5, 5] 1800 = .ok [0] :=
  claim_C3_nonneg_final_zero [3, 1] 1800 5 (by norm_num)

/-- C4: fewer than two timestamps is a precondition violation: the
segmenter fails with `insufficientDataError` and produces no session
sequence. -/
theorem claim_C4_insufficient_data (timestamps_sec : List ℚ) (T : ℚ)
    (hlen : timestamps_sec.length < 2) :
    get_sessions_from_time_series timestamps_sec T
      = .error .insufficientDataError := by
  unfold get_sessions_from_time_series
  rw [if_neg (by omega)]

/-- Witness for C4 at the empty input and a one-element input. -/
theorem claim_C4_witness :
    get_sessions_from_time_series [] 1800 = .error .insufficientDataError ∧
    get_sessions_from_time_series [42] 1800 = .error .insufficientDataError :=
  ⟨claim_C4_insufficient_data [] 1800 (by norm_num),
   claim_C4_insufficient_data [42] 1800 (by norm_num)⟩

/-! ## Metadata store (`data.py`, `get_metadata`) -/

/-- A scalar metadata tag value: a number, a date-like string, or the
"undefined" (not-a-number) value used in lenient mode. -/
inductive TagValue where
  | num (q : ℚ)
  | str (s : String)
  | undef
deriving DecidableEq

/-- A metadata record: a flat mapping from tag names to scalar values
(one record per source file), embedded as an association list. -/
abbrev Record := List (String × TagValue)

/-- A `pathlib.Path`: the parent folder plus the file name. -/
structure PyPath where
  parent : String
  name : String
deriving DecidableEq

/-- The outcome of the external extraction process on a batch: a list
of records, or the extractor-specific empty-output condition
(`ExifToolOutputEmptyError`). -/
inductive ExtractOutcome where
  | success (records : List Record)
  | emptyOutput
deriving DecidableEq

/-- Observable result of one `get_metadata` call: the returned record
list, the cache state after the call (`none` = no cache path given,
`some none` = path given but no file, `some (some l)` = file with
parsed contents `l`), whether the extractor was invoked, and the
diagnostic printed, if any. -/
structure GetMetadataResult where
  records : List Record
  cacheAfter : Option (Option (List Record))
  extractorInvoked : Bool
  diagnostic : Option String
deriving DecidableEq

/-- `get_metadata` from `data.py`.  `cache_file` is the state of the
optional cache file (as in `GetMetadataResult.cacheAfter`).  If the
cache file exists its parsed contents are returned as-is.  Otherwise
the extractor runs on the whole batch: on the empty-output condition
the code prints a diagnostic naming `files[0].parent` — an `IndexError`
when `files` is empty — and returns `[dict()]`; on success it writes
the cache when requested (`write_cache` and a cache path given) and
returns the extractor's records. -/
def get_metadata (files : List PyPath)
    (cache_file : Option (Option (List Record)))
    (write_cache : Bool) (extract : ExtractOutcome) :
    Except PyError GetMetadataResult :=
  match cache_file with
  | some (some cached) => .ok ⟨cached, some (some cached), false, none⟩
  | _ =>
    match extract with
    | .emptyOutput =>
        match files with
        | [] => .error .indexError
        | f :: _ => .ok ⟨[[]], cache_file, true, some f.parent⟩
    | .success metadata =>
        if write_cache && cache_file.isSome then
          .ok ⟨metadata, some (some metadata), true, none⟩
        else
          .ok ⟨metadata, cache_file, true, none⟩

/-- Modelled from the spec: the tag lookup helper `try_get_tag` is
imported from `photography_analysis.data` by the plotting code but its
definition is not present under `src/`.  Per the spec's contract:
return the tag's value if present; if absent, raise `MissingTagError`
in strict mode (the default, `use_nan = false`), or return the
"undefined" (not-a-number) value when the caller-level lenient flag
`use_nan` is set. -/
def try_get_tag (record : Record) (tag : String)
    (use_nan : Bool := false) : Except PyError TagValue :=
  match record.lookup tag with
  | some v => .ok v
  | none => if use_nan then .ok .undef else .error .missingTagError

/-- C5: cache round-trip.  Writing a record list through the store
(cache path given, file absent, caching on) persists exactly that list,
and any later call that finds the cache file returns its contents
verbatim — for arbitrary input files and extractor behavior, without
invoking the extractor and with no validation that the record count
matches the file count. -/
theorem claim_C5_cache_round_trip (files files₂ : List PyPath)
    (records : List Record) (wc₂ : Bool) (ex₂ : ExtractOutcome) :
    get_metadata files (some none) true (.success records)
      = .ok ⟨records, some (some records), true, none⟩ ∧
    get_metadata files₂ (some (some records)) wc₂ ex₂
      = .ok ⟨records, some (some records), false, none⟩ := by
  exact ⟨rfl, rfl⟩

/-- C6: tag lookup.  A present tag's value is returned; an absent tag
raises `missingTagError` in default (strict) mode and yields the
undefined (not-a-number) value when the lenient flag is set. -/
theorem claim_C6_tag_lookup (record : Record) (tag : String)
    (v : TagValue) (use_nan : Bool) :
    (record.lookup tag = some v → try_get_tag record tag use_nan = .ok v) ∧
    (record.lookup tag = none →
      try_get_tag record tag false = .error .missingTagError ∧
      try_get_tag record tag true = .ok .undef) := by
  constructor
  · intro h
    unfold try_get_tag
    rw [h]
  · intro h
    unfold try_get_tag
    rw [h]
    exact ⟨rfl, rfl⟩

/-- Witness for C6 on a record holding `EXIF:ISO` and one missing it. -/
theorem claim_C6_witness :
    try_get_tag [("EXIF:ISO", .num 100)] "EXIF:ISO" false = .ok (.num 100) ∧
    try_get_tag [] "EXIF:ISO" false = .error .missingTagError ∧
    try_get_tag [] "EXIF:ISO" true = .ok .undef :=
  ⟨(claim_C6_tag_lookup [("EXIF:ISO", .num 100)] "EXIF:ISO" (.num 100) false).1
      (by decide),
   (claim_C6_tag_lookup [] "EXIF:ISO" .undef false).2 rfl |>.1,
   (claim_C6_tag_lookup [] "EXIF:ISO" .undef false).2 rfl |>.2⟩

/-- C7: empty-batch recovery.  For a non-empty batch with no usable
cache, when the extractor reports the empty-output condition the store
returns (`.ok`, not an error) a single-element list holding one empty
record, together with a diagnostic naming the batch's source folder
(the parent of the first file). -/
theorem claim_C7_empty_batch_recovery (f : PyPath) (rest : List PyPath)
    (cache_file : Option (Option (List Record))) (wc : Bool)
    (h : cache_file = none ∨ cache_file = some none) :
    get_metadata (f :: rest) cache_file wc .emptyOutput
      = .ok ⟨[[]], cache_file, true, some f.parent⟩ := by
  rcases h with h | h <;> rw [h] <;> rfl

/-- Witness for C7 at a one-file batch in folder `photos`. -/
theorem claim_C7_witness :
    get_metadata [⟨"photos", "img1.CR3"⟩] (some none) true .emptyOutput
      = .ok ⟨[[]], some none, true, some "photos"⟩ :=
  claim_C7_empty_batch_recovery ⟨"photos", "img1.CR3"⟩ [] (some none) true
    (Or.inr rfl)

/-- C10: the empty-batch recovery path is only defined for non-empty
batches.  With an empty file list, no existing cache file, and the
extractor reporting the empty-output condition, building the diagnostic
indexes `files[0]`, which faults with an `IndexError` instead of
reaching the degraded success path. -/
theorem claim_C10_empty_files_faults
    (cache_file : Option (Option (List Record))) (wc : Bool)
    (h : cache_file = none ∨ cache_file = some none) :
    get_metadata [] cache_file wc .emptyOutput = .error .indexError := by
  rcases h with h | h <;> rw [h] <;> rfl

/-- Witness for C10 with no cache path given. -/
theorem claim_C10_witness :
    get_metadata [] none true .emptyOutput = .error .indexError :=
  claim_C10_empty_files_faults none true (Or.inl rfl)

/-! ## Dataset assembler (`__main__.py`, `process_metadata_plots`) -/

/-- The `--compare-folders` selector: restrict to the raw or the edited
file category. -/
inductive CompareMode where
  | raw
  | edited
deriving DecidableEq

/-- The per-folder environment a run observes: the files matched by
each glob pattern, the state of each cache file
(`<folder>/metadata_raw.json`, `<folder>/metadata_edited.json`), and
the extractor's behavior on each batch. -/
structure FolderData where
  rawFiles : List PyPath
  editedFiles : List PyPath
  rawCache : Option (List Record)
  editedCache : Option (List Record)
  rawExtract : ExtractOutcome
  editedExtract : ExtractOutcome
deriving DecidableEq

/-- One folder's metadata list for one category: the
`data.get_metadata(files=..., cache_file=folder / cache_filename, ...)`
call of `process_metadata_plots` (a cache path is always supplied). -/
def folder_category_metadata (fd : FolderData) (mode : CompareMode)
    (write_cache : Bool) : Except PyError (List Record) :=
  match mode with
  | .raw =>
      (get_metadata fd.rawFiles (some fd.rawCache) write_cache
        fd.rawExtract).map GetMetadataResult.records
  | .edited =>
      (get_metadata fd.editedFiles (some fd.editedCache) write_cache
        fd.editedExtract).map GetMetadataResult.records

/-- The aggregate branch of `process_metadata_plots`: per folder,
extend `metadata_raw` and `metadata_edited` with that folder's raw and
edited record lists. -/
def aggregate_raw_edited (write_cache : Bool) :
    List FolderData → Except PyError (List Record × List Record)
  | [] => .ok ([], [])
  | fd :: rest => do
      let r ← folder_category_metadata fd .raw write_cache
      let e ← folder_category_metadata fd .edited write_cache
      let (rs, es) ← aggregate_raw_edited write_cache rest
      return (r ++ rs, e ++ es)

/-- The compare branch of `process_metadata_plots`: one collection per
folder, restricted to the selected category. -/
def compare_collections (mode : CompareMode) (write_cache : Bool) :
    List FolderData → Except PyError (List (List Record))
  | [] => .ok []
  | fd :: rest => do
      let c ← folder_category_metadata fd mode write_cache
      let cs ← compare_collections mode write_cache rest
      return (c :: cs)

/-- The collection/label assembly of `process_metadata_plots`:
in compare mode one labeled group per folder (caller-supplied labels),
otherwise the two-label raw/edited aggregation. -/
def process_metadata_collections (compare_folders : Option CompareMode)
    (folders : List FolderData) (folder_comparison_labels : List String)
    (write_cache : Bool) :
    Except PyError (List (List Record) × List String) :=
  match compare_folders with
  | some mode => do
      let colls ← compare_collections mode write_cache folders
      return (colls, folder_comparison_labels)
  | none => do
      let (r, e) ← aggregate_raw_edited write_cache folders
      return ([r, e], ["Raw photos", "Edited photos"])

/-- C8: for a run with exactly one folder, the two-label collection of
aggregate mode equals, category by category, the single-folder
collection of compare-by-raw respectively compare-by-edited mode. -/
theorem claim_C8_aggregate_compare_equiv (fd : FolderData) (wc : Bool)
    (lbl : String) (lbls : List String) (r e : List Record)
    (h : process_metadata_collections none [fd] lbls wc
          = .ok ([r, e], ["Raw photos", "Edited photos"])) :
    process_metadata_collections (some .raw) [fd] [lbl] wc
      = .ok ([r], [lbl]) ∧
    process_metadata_collections (some .edited) [fd] [lbl] wc
      = .ok ([e], [lbl]) := by
  unfold process_metadata_collections aggregate_raw_edited at h
  unfold process_metadata_collections compare_collections
  cases hr : folder_category_metadata fd .raw wc with
  | error er =>
      rw [hr] at h
      simp [aggregate_raw_edited, Bind.bind, Except.bind] at h
  | ok rv =>
      cases he : folder_category_metadata fd .edited wc with
      | error ee =>
          rw [hr, he] at h
          simp [aggregate_raw_edited, Bind.bind, Except.bind] at h
      | ok ev =>
          rw [hr, he] at h
          simp only [aggregate_raw_edited, Bind.bind, Except.bind,
            List.append_nil, Pure.pure, Except.pure, Except.ok.injEq,
            Prod.mk.injEq, List.cons.injEq, and_true] at h
          dsimp only
          rw [hr, he]
          simp only [compare_collections, Bind.bind, Except.bind,
            Pure.pure, Except.pure, Except.ok.injEq, Prod.mk.injEq,
            List.cons.injEq, and_true]
          exact ⟨h.1, h.2⟩

/-- Witness for C8 on a folder whose raw and edited caches both
exist (so both branches hit the cache path). -/
theorem claim_C8_witness :
    process_metadata_collections (some .raw)
        [⟨[], [], some [[("EXIF:ISO", .num 100)]], some [], .emptyOutput, .emptyOutput⟩]
        ["Album"] true
      = .ok ([[[("EXIF:ISO", .num 100)]]], ["Album"]) ∧
    process_metadata_collections (some .edited)
        [⟨[], [], some [[("EXIF:ISO", .num 100)]], some [], .emptyOutput, .emptyOutput⟩]
        ["Album"] true
      = .ok ([[]], ["Album"]) :=
  claim_C8_aggregate_compare_equiv
    ⟨[], [], some [[("EXIF:ISO", .num 100)]], some [], .emptyOutput, .emptyOutput⟩
    true "Album" [] [[("EXIF:ISO", .num 100)]] [] (by rfl)

/-! ## CLI validation (`__main__.py`, `validate_args`) -/

/-- Python truthiness of an optional list argument (as produced by
`argparse` with `nargs` star: `none` when the flag is absent): truthy
exactly when it is a non-empty list. -/
def truthyStrList : Option (List String) → Bool
  | some (_ :: _) => true
  | _ => false

/-- The custom-metadata-plot triple checks of `validate_args`: if any
of the three options is truthy, all three must be truthy and of equal
length; each violation raises `ValueError`. -/
def validate_custom_plot_args
    (customPlot customTag customLabel : Option (List String)) :
    Except PyError Unit :=
  if truthyStrList customPlot || truthyStrList customTag ||
      truthyStrList customLabel then
    if truthyStrList customPlot && truthyStrList customTag &&
        truthyStrList customLabel then
      if (customPlot.getD []).length = (customTag.getD []).length ∧
          (customTag.getD []).length = (customLabel.getD []).length then
        .ok ()
      else .error .valueError
    else .error .valueError
  else .ok ()

/-- The folder-existence loop of `validate_args`.  The second component
records the `exists()` filesystem calls performed, in order: each
folder is checked before a missing one raises `ValueError`. -/
def check_folders_exist (folderExists : String → Bool) :
    List String → Except PyError Unit × List String
  | [] => (.ok (), [])
  | f :: rest =>
      if folderExists f then
        let (r, tr) := check_folders_exist folderExists rest
        (r, f :: tr)
      else (.error .valueError, [f])

/-- `validate_args` from `__main__.py`.  The label-count check runs
first: when `--compare-folders` is truthy, Python evaluates
`len(args.folder_comparison_labels)`; since the labels option has no
default, an absent flag leaves it `None` and `len(None)` raises
`TypeError`, while a supplied list of the wrong length raises the
descriptive `ValueError`.  Then the custom-plot triple is validated,
and finally each folder's existence is checked (the run's first file
I/O, recorded in the returned trace). -/
def validate_args (compare_folders : Option CompareMode)
    (folders : List String)
    (folder_comparison_labels : Option (List String))
    (customPlot customTag customLabel : Option (List String))
    (folderExists : String → Bool) :
    Except PyError Unit × List String :=
  let rest := fun (_ : Unit) =>
    match validate_custom_plot_args customPlot customTag customLabel with
    | .error e => (Except.error e, [])
    | .ok _ => check_folders_exist folderExists folders
  match compare_folders with
  | some _ =>
      match folder_comparison_labels with
      | none => (.error .typeError, [])
      | some ls =>
          if folders.length ≠ ls.length then (.error .valueError, [])
          else rest ()
  | none => rest ()

/-- Counterexample to C9: in compare-folders mode with one folder and
no labels supplied at all, `validate_args` fails with a `TypeError`
(from `len(None)`), not with the descriptive `ValueError` that embodies
the spec's `ConfigurationError` — contradicting the claim that this
case too fails with `ConfigurationError`. -/
theorem claim_C9_counterexample :
    validate_args (some .raw) ["album"] none none none none
        (fun _ => true)
      = (.error .typeError, []) ∧
    PyError.typeError ≠ PyError.valueError :=
  ⟨rfl, by decide⟩

/-- C9 (amended): in compare-folders mode, when a labels list is
supplied and its length differs from the number of folders,
`validate_args` fails with `ValueError` (the spec's
`ConfigurationError`) before any file I/O (empty `exists()` trace);
when no labels are supplied at all, it still fails before any file I/O,
but with a `TypeError` from taking the length of `None` rather than
with the descriptive error. -/
theorem claim_C9_label_count_amended (mode : CompareMode)
    (folders : List String) (ls : List String)
    (customPlot customTag customLabel : Option (List String))
    (folderExists : String → Bool)
    (hmis : folders.length ≠ ls.length) :
    validate_args (some mode) folders (some ls) customPlot customTag
        customLabel folderExists = (.error .valueError, []) ∧
    validate_args (some mode) folders none customPlot customTag
        customLabel folderExists = (.error .typeError, []) := by
  constructor
  · unfold validate_args
    dsimp only
    rw [if_pos hmis]
  · rfl

/-- Witness for the amended C9 at one folder and zero supplied
labels. -/
theorem claim_C9_witness :
    validate_args (some .raw) ["album"] (some []) none none none
        (fun _ => true)
      = (.error .valueError, []) ∧
    validate_args (some .raw) ["album"] none none none none
        (fun _ => true)
      = (.error .typeError, []) :=
  claim_C9_label_count_amended .raw ["album"] [] none none none
    (fun _ => true) (by norm_num)

end PhotoAnalysis
